import Mathlib

/-!
Shallow embedding of the mentor-matching subsystem of the Underdog-Devs DS
API (src/app/model.py and src/app/api.py), with proofs of the specification
claims about it.

Documents are Python dicts, so every field of a record may be absent: an
absent field is `none`, and reading it fails like a Python `KeyError`.
Fallible Python code is embedded in `Except MatchError`.
-/

/-- A mentee document. The fields are the ones read by the matching
subsystem (src/app/model.py) plus `industry_knowledge`, which mentee
documents carry per the example payload in src/app/api.py. -/
structure Mentee where
  profile_id : Option Int := none
  subject : Option String := none
  experience_level : Option String := none
  pair_programming : Option Bool := none
  industry_knowledge : Option Bool := none
deriving Repr, DecidableEq

/-- A mentor document, with the fields read by src/app/model.py. -/
structure Mentor where
  profile_id : Option Int := none
  subject : Option String := none
  experience_level : Option String := none
  pair_programming : Option Bool := none
  industry_knowledge : Option Bool := none
deriving Repr, DecidableEq

/-- Modelled from the spec: a resource document, the argument role of the
resource matcher (section 4 of the spec: "matching mentees to a resource
item", identified by `item_id`, sharing the contract shape of the mentee
side). Its matching-relevant fields mirror the mentee's. -/
structure Resource where
  item_id : Option Int := none
  subject : Option String := none
  experience_level : Option String := none
  pair_programming : Option Bool := none
deriving Repr, DecidableEq

/-- The failure conditions of the matching subsystem. `notFound` is the
not-found condition of the Record Store `first` lookup; `keyError` is a
Python `KeyError` from reading an absent dict field; `sampleTooLarge` is the
`ValueError` that `random.sample` raises when the requested size exceeds the
population. -/
inductive MatchError where
  | notFound
  | keyError
  | sampleTooLarge
deriving Repr, DecidableEq

/-- Reading a field of a document: a present field yields its value, an
absent one fails like a Python `KeyError`. -/
def getKey {α : Type} (v : Option α) : Except MatchError α :=
  match v with
  | some x => Except.ok x
  | none => Except.error MatchError.keyError

/-- Modelled from the spec: the Record Store (app/data.py is not under
src/). Section 6 of the spec gives the interface the matchers use:
`read` (full scan in natural order, the `mentees`/`mentors`/`resources`
lists), `first` (first record matching a filter, or a not-found failure) and
`search` (relevance-ordered fuzzy match, kept abstract as a function from
the query text to the ordered result list). -/
structure Database where
  mentees : List Mentee
  mentors : List Mentor
  resources : List Resource
  searchMentors : String → List Mentor
  searchMentees : String → List Mentee

/-- Modelled from the spec: `first("Mentees", filter with profile_id)`
returns the first mentee record whose `profile_id` equals the argument, and
fails with the not-found condition when no record matches. -/
def dbFirstMentee (db : Database) (profile_id : Int) : Except MatchError Mentee :=
  match db.mentees.find? (fun m => m.profile_id == some profile_id) with
  | some m => Except.ok m
  | none => Except.error MatchError.notFound

/-- Modelled from the spec: `first("Resources", filter with item_id)`, the
resource-side counterpart of `dbFirstMentee`. -/
def dbFirstResource (db : Database) (item_id : Int) : Except MatchError Resource :=
  match db.resources.find? (fun r => r.item_id == some item_id) with
  | some r => Except.ok r
  | none => Except.error MatchError.notFound

/-- Evaluate `f` on every element from left to right, stopping at the first
failure: the shape of a Python list comprehension over fallible dict reads,
and of the key-decoration pass of Python `sorted`. -/
def traverseExcept {α β : Type} (f : α → Except MatchError β) :
    List α → Except MatchError (List β)
  | [] => Except.ok []
  | x :: xs =>
    match f x with
    | Except.error e => Except.error e
    | Except.ok y =>
      match traverseExcept f xs with
      | Except.error e => Except.error e
      | Except.ok ys => Except.ok (y :: ys)

/-- Boolean order with `false` before `true`, as Python orders booleans. -/
def boolLe (a b : Bool) : Bool := !a || b

/-- Lexicographic order on the 2-tuples produced by `MatcherSort`'s key
function, matching Python tuple comparison with `False < True`. -/
def lex2 (p q : Bool × Bool) : Bool :=
  if p.1 == q.1 then boolLe p.2 q.2 else boolLe p.1 q.1

/-- Lexicographic order on 3-tuples of booleans. -/
def lex3 (p q : Bool × Bool × Bool) : Bool :=
  if p.1 == q.1 then lex2 p.2 q.2 else boolLe p.1 q.1

/-- Lexicographic order on the 4-tuples produced by `MatcherSortSearch`'s
key function, matching Python tuple comparison with `False < True`. -/
def lex4 (p q : Bool × Bool × Bool × Bool) : Bool :=
  if p.1 == q.1 then lex3 p.2 q.2 else boolLe p.1 q.1

/-- Decorating one element for Python `sorted`'s key precomputation: pair
the element with its key, propagating a failed dict read. -/
def decorate {α κ : Type} (key : α → Except MatchError κ) (m : α) :
    Except MatchError (κ × α) :=
  match key m with
  | Except.error e => Except.error e
  | Except.ok k => Except.ok (k, m)

/-- The order `sorted` uses on decorated elements: compare the keys. -/
def pairLe {α κ : Type} (le : κ → κ → Bool) (p q : κ × α) : Prop :=
  le p.1 q.1 = true

instance {α κ : Type} (le : κ → κ → Bool) : DecidableRel (pairLe (α := α) le) :=
  fun p q => instDecidableEqBool (le p.1 q.1) true

/-- Python `sorted(l, key=key)` over fallible dict reads. CPython first
computes the key of every element in list order (so a `KeyError` raised for
any element aborts the whole call, even for elements a later slice would
drop), then stably sorts the decorated list by `le` on the keys. Python's
sort is stable; it is embedded as `List.insertionSort`, which Mathlib proves
stable, sorted and a permutation. -/
def sortByKey {α κ : Type} (key : α → Except MatchError κ) (le : κ → κ → Bool)
    (l : List α) : Except MatchError (List α) :=
  match traverseExcept (decorate key) l with
  | Except.error e => Except.error e
  | Except.ok pairs =>
    Except.ok ((List.insertionSort (pairLe le) pairs).map Prod.snd)

/-- The sort key of `MatcherSort.__call__` (src/app/model.py lines 29-34):
`(mentee subject mismatch, experience_level mismatch)`, with the dict reads
in Python evaluation order. -/
def mentorSortKey (mentee : Mentee) (mentor : Mentor) : Except MatchError (Bool × Bool) := do
  let mes ← getKey mentee.subject
  let mos ← getKey mentor.subject
  let mee ← getKey mentee.experience_level
  let moe ← getKey mentor.experience_level
  pure (mes != mos, mee != moe)

/-- `MatcherSort.__call__` (src/app/model.py lines 25-37): look the mentee
up by `profile_id`, stably sort the full `Mentors` scan by `mentorSortKey`,
slice to `n_matches`, and extract each surviving mentor's `profile_id`. -/
def matcherSort (n_matches : Nat) (profile_id : Int) (db : Database) :
    Except MatchError (List Int) := do
  let mentee ← dbFirstMentee db profile_id
  let ranked ← sortByKey (mentorSortKey mentee) lex2 db.mentors
  traverseExcept (fun m => getKey m.profile_id) (ranked.take n_matches)

/-- `MatcherSearch.__call__` (src/app/model.py lines 56-60): look the mentee
up, fuzzy-search `Mentors` on the mentee's subject, slice to `n_matches` in
relevance order, and extract profile ids. -/
def matcherSearch (n_matches : Nat) (profile_id : Int) (db : Database) :
    Except MatchError (List Int) := do
  let mentee ← dbFirstMentee db profile_id
  let subj ← getKey mentee.subject
  traverseExcept (fun m => getKey m.profile_id) ((db.searchMentors subj).take n_matches)

/-- The sort key of `MatcherSortSearch.__call__` (src/app/model.py lines
85-92): `(subject mismatch, experience_level mismatch, pair_programming
mismatch, mentor industry_knowledge)`, dict reads in Python evaluation
order. The source marks this tuple "Todo: Double Check Logic!!!". -/
def sortSearchKey (mentee : Mentee) (mentor : Mentor) :
    Except MatchError (Bool × Bool × Bool × Bool) := do
  let mes ← getKey mentee.subject
  let mos ← getKey mentor.subject
  let mee ← getKey mentee.experience_level
  let moe ← getKey mentor.experience_level
  let mep ← getKey mentee.pair_programming
  let mop ← getKey mentor.pair_programming
  let ik ← getKey mentor.industry_knowledge
  pure (mes != mos, mee != moe, mep != mop, ik)

/-- `MatcherSortSearch.__call__` (src/app/model.py lines 81-98): look the
mentee up, fuzzy-search `Mentors` on the mentee's subject, stably sort the
hits by `sortSearchKey`, slice to `n_matches`, and extract profile ids. -/
def matcherSortSearch (n_matches : Nat) (profile_id : Int) (db : Database) :
    Except MatchError (List Int) := do
  let mentee ← dbFirstMentee db profile_id
  let subj ← getKey mentee.subject
  let ranked ← sortByKey (sortSearchKey mentee) lex4 (db.searchMentors subj)
  traverseExcept (fun m => getKey m.profile_id) (ranked.take n_matches)

/-- Modelled from the spec: the ranking key of the resource matcher, the
`sortSearchKey` tuple with the mentee/resource roles swapped (the resource
supplies the reference `subject`, `experience_level` and `pair_programming`;
the candidate mentee supplies `industry_knowledge`). -/
def resourceSortKey (resource : Resource) (mentee : Mentee) :
    Except MatchError (Bool × Bool × Bool × Bool) := do
  let rs ← getKey resource.subject
  let ms ← getKey mentee.subject
  let re ← getKey resource.experience_level
  let me ← getKey mentee.experience_level
  let rp ← getKey resource.pair_programming
  let mp ← getKey mentee.pair_programming
  let ik ← getKey mentee.industry_knowledge
  pure (rs != ms, re != me, rp != mp, ik)

/-- Modelled from the spec: `MatcherSortSearchResource.__call__`. The class
is imported by src/app/api.py from app.model but its definition is not under
src/. Per section 4 of the spec it "shares the same contract shape with
`item_id` substituted for `profile_id` and mentee/resource roles swapped":
it resolves `item_id` to a resource record (not-found failure otherwise),
fuzzy-searches `Mentees` on the resource's subject, stably sorts the hits by
`resourceSortKey`, slices to `n_matches`, and extracts mentee profile ids. -/
def matcherSortSearchResource (n_matches : Nat) (item_id : Int) (db : Database) :
    Except MatchError (List Int) := do
  let resource ← dbFirstResource db item_id
  let subj ← getKey resource.subject
  let ranked ← sortByKey (resourceSortKey resource) lex4 (db.searchMentees subj)
  traverseExcept (fun m => getKey m.profile_id) (ranked.take n_matches)

/-- Modelled from the documented contract of Python's `random.sample` (the
standard library, external to this repository): sampling `k` elements
without replacement is a choice of `k` distinct positions of the population,
and `k` larger than the population raises `ValueError`. The random choice is
abstracted into the explicit argument `idx`, the positions the generator
picked in order; `sampleChoice` below says `idx` is a choice the generator
could actually make. -/
def sample {α : Type} (population : List α) (k : Nat) (idx : List Nat) :
    Except MatchError (List α) :=
  if k ≤ population.length then
    Except.ok (idx.filterMap fun i => population[i]?)
  else Except.error MatchError.sampleTooLarge

/-- `idx` is a list of positions that `random.sample` drawing `k` of
`popLength` could produce: `k` of them, pairwise distinct, all in range. -/
def sampleChoice (popLength k : Nat) (idx : List Nat) : Prop :=
  idx.length = k ∧ idx.Nodup ∧ ∀ i ∈ idx, i < popLength

instance (popLength k : Nat) (idx : List Nat) : Decidable (sampleChoice popLength k idx) :=
  inferInstanceAs (Decidable (idx.length = k ∧ idx.Nodup ∧ ∀ i ∈ idx, i < popLength))

/-- `MatcherRandom.__call__` (src/app/model.py lines 117-120): sample
`n_matches` mentors from the full `Mentors` scan, ignoring `profile_id`, and
extract profile ids. -/
def matcherRandom (n_matches : Nat) (profile_id : Int) (idx : List Nat) (db : Database) :
    Except MatchError (List Int) := do
  let results ← sample db.mentors n_matches idx
  traverseExcept (fun m => getKey m.profile_id) results

/-- The JSON error envelope produced by the API's blanket exception handler
(HTTP status code plus the body fields of src/app/api.py lines 214-221). -/
structure ErrorResponse where
  status_code : Nat
  code : Nat
  error : String
  message : String
deriving Repr, DecidableEq

/-- The `str(exc)` text of the modelled exceptions. -/
def excStr : MatchError → String
  | MatchError.notFound => "mentee not found"
  | MatchError.keyError => "key error"
  | MatchError.sampleTooLarge => "sample larger than population or is negative"

/-- `all_exception_handler` (src/app/api.py lines 208-221): every exception
that escapes a route handler becomes a JSON response with HTTP status 500,
body code 500 and message "server error". -/
def all_exception_handler (exc : MatchError) : ErrorResponse :=
  { status_code := 500, code := 500, error := excStr exc, message := "server error" }

/-- POST /match/:profile_id (src/app/api.py lines 154-169): calls the
`MatcherSortSearch` instance. The route has no not-found check of its own
(unlike /financial_aid/:profile_id, which raises a 404), so any failure
escapes to `all_exception_handler`. -/
def matchEndpoint (profile_id : Int) (n_matches : Nat) (db : Database) :
    Sum ErrorResponse (List Int) :=
  match matcherSortSearch n_matches profile_id db with
  | Except.ok r => Sum.inr r
  | Except.error e => Sum.inl (all_exception_handler e)

/-- A mentor matches a mentee on both ranked fields of `MatcherSort`: its
`subject` and `experience_level` dict entries equal the mentee's. -/
def bothMatch (mentee : Mentee) (m : Mentor) : Prop :=
  m.subject = mentee.subject ∧ m.experience_level = mentee.experience_level

instance (mentee : Mentee) (m : Mentor) : Decidable (bothMatch mentee m) :=
  inferInstanceAs (Decidable (And _ _))

/-! Concrete records and databases used by the claim scenarios, the
counterexamples and the witnesses. -/

/-- The mentee of the spec's worked scenario (section 8), stored under
profile_id 7. -/
def menteeS : Mentee :=
  { profile_id := some 7, subject := some "Web", experience_level := some "Beginner" }

/-- Scenario mentor 1: matches the mentee on both ranked fields. -/
def mS1 : Mentor :=
  { profile_id := some 1, subject := some "Web", experience_level := some "Beginner" }

/-- Scenario mentor 2: matches on subject only. -/
def mS2 : Mentor :=
  { profile_id := some 2, subject := some "Web", experience_level := some "Advanced" }

/-- Scenario mentor 3: matches on experience level only. -/
def mS3 : Mentor :=
  { profile_id := some 3, subject := some "Data", experience_level := some "Beginner" }

/-- The scenario's mentor collection, in Record Store natural order. -/
def mentorsS : List Mentor := [mS1, mS2, mS3]

/-- The ranked order of the scenario's mentors under `mentorSortKey`. -/
def msS : List Mentor := [mS1, mS2, mS3]

/-- The scenario database. -/
def dbScenario : Database :=
  { mentees := [menteeS], mentors := mentorsS, resources := [],
    searchMentors := fun _ => mentorsS, searchMentees := fun _ => [] }

/-- A mentee whose documents carry every matching field. -/
def menteeF : Mentee :=
  { profile_id := some 7, subject := some "Web", experience_level := some "Beginner",
    pair_programming := some false, industry_knowledge := some true }

/-- Full-field mentor matching the mentee on every ranked field. -/
def mF1 : Mentor :=
  { profile_id := some 1, subject := some "Web", experience_level := some "Beginner",
    pair_programming := some false, industry_knowledge := some false }

/-- Full-field mentor matching on subject only. -/
def mF2 : Mentor :=
  { profile_id := some 2, subject := some "Web", experience_level := some "Advanced",
    pair_programming := some true, industry_knowledge := some true }

/-- Full-field mentor matching on experience level only. -/
def mF3 : Mentor :=
  { profile_id := some 3, subject := some "Data", experience_level := some "Beginner",
    pair_programming := some false, industry_knowledge := some true }

/-- The full-field mentor collection. -/
def mentorsF : List Mentor := [mF1, mF2, mF3]

/-- Database of full-field records; the fuzzy search returns every mentor. -/
def dbFull : Database :=
  { mentees := [menteeF], mentors := mentorsF, resources := [],
    searchMentors := fun _ => mentorsF, searchMentees := fun _ => [] }

/-- Two mentors with identical ranking keys but distinct ids (a tie). -/
def mT1 : Mentor :=
  { profile_id := some 11, subject := some "Web", experience_level := some "Beginner",
    pair_programming := some false, industry_knowledge := some false }

/-- The second mentor of the tie. -/
def mT2 : Mentor :=
  { profile_id := some 12, subject := some "Web", experience_level := some "Beginner",
    pair_programming := some false, industry_knowledge := some false }

/-- A well-ranked mentor used by the C9 counterexample. -/
def mGood : Mentor :=
  { profile_id := some 10, subject := some "Web", experience_level := some "Beginner" }

/-- A mentor whose document has no `profile_id` and ranks last. -/
def mBad : Mentor :=
  { subject := some "Data", experience_level := some "Advanced" }

/-- Database for the C9 counterexample: `mBad` has no profile_id but is
truncated away before id extraction. -/
def dbC9 : Database :=
  { mentees := [menteeS], mentors := [mGood, mBad], resources := [],
    searchMentors := fun _ => [], searchMentees := fun _ => [] }

/-- A mentor whose document has no `subject`. -/
def mNoSubj : Mentor :=
  { profile_id := some 11, experience_level := some "Beginner" }

/-- Database whose mentor scan contains a record missing `subject`. -/
def dbC9b : Database :=
  { mentees := [menteeS], mentors := [mGood, mNoSubj], resources := [],
    searchMentors := fun _ => [], searchMentees := fun _ => [] }

/-- Two distinct mentor documents sharing profile_id 7. -/
def mD1 : Mentor := { profile_id := some 7, subject := some "Web" }

/-- The second document with profile_id 7. -/
def mD2 : Mentor := { profile_id := some 7, subject := some "Data" }

/-- Database whose mentor population carries duplicate profile_id values. -/
def dbDup : Database :=
  { mentees := [], mentors := [mD1, mD2], resources := [],
    searchMentors := fun _ => [], searchMentees := fun _ => [] }

/-- A resource document, stored under item_id 5. -/
def resourceR : Resource :=
  { item_id := some 5, subject := some "Web", experience_level := some "Beginner",
    pair_programming := some false }

/-- A mentee candidate matching the resource on every ranked field. -/
def menteeR1 : Mentee :=
  { profile_id := some 21, subject := some "Web", experience_level := some "Beginner",
    pair_programming := some false, industry_knowledge := some false }

/-- A mentee candidate matching the resource on no ranked field. -/
def menteeR2 : Mentee :=
  { profile_id := some 22, subject := some "Data", experience_level := some "Advanced",
    pair_programming := some true, industry_knowledge := some true }

/-- Database for the resource matcher: one resource, two mentee candidates. -/
def dbRes : Database :=
  { mentees := [menteeR1, menteeR2], mentors := [], resources := [resourceR],
    searchMentors := fun _ => [], searchMentees := fun _ => [menteeR1, menteeR2] }

-- Equality of matcher results is decidable, so scenarios can be `decide`d.
deriving instance DecidableEq for Except

/-! Generic lemmas about the embedded Python constructs. -/

theorem exceptBind_ok {α β : Type} {x : Except MatchError α}
    {f : α → Except MatchError β} {b : β} (h : (x >>= f) = Except.ok b) :
    ∃ a, x = Except.ok a ∧ f a = Except.ok b := by
  cases x with
  | error e => exact absurd h (by simp [Bind.bind, Except.bind])
  | ok a => exact ⟨a, rfl, h⟩

theorem traverseExcept_ok_length {α β : Type} {f : α → Except MatchError β} :
    ∀ {l : List α} {ys : List β}, traverseExcept f l = Except.ok ys →
      ys.length = l.length := by
  intro l
  induction l with
  | nil => intro ys h; simp [traverseExcept] at h; simp [h.symm]
  | cons x xs ih =>
    intro ys h
    simp only [traverseExcept] at h
    cases hx : f x with
    | error e => rw [hx] at h; exact absurd h (by simp)
    | ok y =>
      rw [hx] at h
      cases hxs : traverseExcept f xs with
      | error e => rw [hxs] at h; exact absurd h (by simp)
      | ok ys' =>
        rw [hxs] at h
        simp only [Except.ok.injEq] at h
        subst h
        simp [ih hxs]

theorem traverseExcept_ok_mem {α β : Type} {f : α → Except MatchError β} :
    ∀ {l : List α} {ys : List β}, traverseExcept f l = Except.ok ys →
      ∀ y ∈ ys, ∃ x ∈ l, f x = Except.ok y := by
  intro l
  induction l with
  | nil =>
    intro ys h y hy
    simp [traverseExcept] at h
    subst h
    exact absurd hy (List.not_mem_nil y)
  | cons x xs ih =>
    intro ys h y hy
    simp only [traverseExcept] at h
    cases hx : f x with
    | error e => rw [hx] at h; exact absurd h (by simp)
    | ok y' =>
      rw [hx] at h
      cases hxs : traverseExcept f xs with
      | error e => rw [hxs] at h; exact absurd h (by simp)
      | ok ys' =>
        rw [hxs] at h
        simp only [Except.ok.injEq] at h
        subst h
        rcases List.mem_cons.mp hy with h1 | h2
        · exact ⟨x, List.mem_cons_self x xs, h1 ▸ hx⟩
        · rcases ih hxs y h2 with ⟨x', hx', hfx'⟩
          exact ⟨x', List.mem_cons_of_mem x hx', hfx'⟩

theorem traverseExcept_ok_forall {α β : Type} {f : α → Except MatchError β} :
    ∀ {l : List α} {ys : List β}, traverseExcept f l = Except.ok ys →
      ∀ x ∈ l, ∃ y, f x = Except.ok y := by
  intro l
  induction l with
  | nil => intro ys _ x hx; exact absurd hx (List.not_mem_nil x)
  | cons a xs ih =>
    intro ys h x hx
    simp only [traverseExcept] at h
    cases ha : f a with
    | error e => rw [ha] at h; exact absurd h (by simp)
    | ok y' =>
      rw [ha] at h
      cases hxs : traverseExcept f xs with
      | error e => rw [hxs] at h; exact absurd h (by simp)
      | ok ys' =>
        rcases List.mem_cons.mp hx with h1 | h2
        · exact ⟨y', h1 ▸ ha⟩
        · exact ih hxs x h2

theorem traverseExcept_ok_of_forall {α β : Type} {f : α → Except MatchError β} :
    ∀ {l : List α}, (∀ x ∈ l, ∃ y, f x = Except.ok y) →
      ∃ ys, traverseExcept f l = Except.ok ys := by
  intro l
  induction l with
  | nil => intro _; exact ⟨[], rfl⟩
  | cons x xs ih =>
    intro h
    rcases h x (List.mem_cons_self x xs) with ⟨y, hy⟩
    rcases ih (fun a ha => h a (List.mem_cons_of_mem x ha)) with ⟨ys, hys⟩
    exact ⟨y :: ys, by simp [traverseExcept, hy, hys]⟩

theorem traverseExcept_error_mem {α β : Type} {f : α → Except MatchError β} :
    ∀ {l : List α} {e : MatchError}, traverseExcept f l = Except.error e →
      ∃ x ∈ l, f x = Except.error e := by
  intro l
  induction l with
  | nil => intro e h; exact absurd h (by simp [traverseExcept])
  | cons x xs ih =>
    intro e h
    simp only [traverseExcept] at h
    cases hx : f x with
    | error e' =>
      rw [hx] at h
      simp only [Except.error.injEq] at h
      exact ⟨x, List.mem_cons_self x xs, h ▸ hx⟩
    | ok y =>
      rw [hx] at h
      cases hxs : traverseExcept f xs with
      | error e' =>
        rw [hxs] at h
        simp only [Except.error.injEq] at h
        rcases ih (h ▸ hxs) with ⟨x', hx', hfx'⟩
        exact ⟨x', List.mem_cons_of_mem x hx', hfx'⟩
      | ok ys => rw [hxs] at h; exact absurd h (by simp)

theorem decorate_ok {α κ : Type} {key : α → Except MatchError κ} {m : α} {p : κ × α}
    (h : decorate key m = Except.ok p) : p.2 = m ∧ key m = Except.ok p.1 := by
  unfold decorate at h
  cases hk : key m with
  | error e => rw [hk] at h; exact absurd h (by simp)
  | ok k =>
    rw [hk] at h
    have h2 : p = (k, m) := (Except.ok.inj h).symm
    subst h2
    exact ⟨rfl, rfl⟩

theorem traverseExcept_decorate_map_snd {α κ : Type} {key : α → Except MatchError κ} :
    ∀ {l : List α} {ps : List (κ × α)},
      traverseExcept (decorate key) l = Except.ok ps → ps.map Prod.snd = l := by
  intro l
  induction l with
  | nil =>
    intro ps h
    simp [traverseExcept] at h
    subst h
    rfl
  | cons x xs ih =>
    intro ps h
    simp only [traverseExcept] at h
    cases hx : decorate key x with
    | error e => rw [hx] at h; exact absurd h (by simp)
    | ok p =>
      rw [hx] at h
      cases hxs : traverseExcept (decorate key) xs with
      | error e => rw [hxs] at h; exact absurd h (by simp)
      | ok ps' =>
        rw [hxs] at h
        simp only [Except.ok.injEq] at h
        subst h
        simp [ih hxs, (decorate_ok hx).1]

theorem traverseExcept_decorate_keys {α κ : Type} {key : α → Except MatchError κ}
    {l : List α} {ps : List (κ × α)}
    (h : traverseExcept (decorate key) l = Except.ok ps) :
    ∀ p ∈ ps, key p.2 = Except.ok p.1 := by
  intro p hp
  rcases traverseExcept_ok_mem h p hp with ⟨x, _, hx⟩
  rcases decorate_ok hx with ⟨h2, h1⟩
  rw [h2]
  exact h1

theorem sortByKey_ok_elim {α κ : Type} {key : α → Except MatchError κ}
    {le : κ → κ → Bool} {l ms : List α} (h : sortByKey key le l = Except.ok ms) :
    ∃ ps, traverseExcept (decorate key) l = Except.ok ps ∧
      ms = (List.insertionSort (pairLe le) ps).map Prod.snd := by
  unfold sortByKey at h
  cases ht : traverseExcept (decorate key) l with
  | error e => rw [ht] at h; exact absurd h (by simp)
  | ok ps =>
    rw [ht] at h
    simp only [Except.ok.injEq] at h
    exact ⟨ps, rfl, h.symm⟩

theorem sortByKey_perm {α κ : Type} {key : α → Except MatchError κ}
    {le : κ → κ → Bool} {l ms : List α} (h : sortByKey key le l = Except.ok ms) :
    ms.Perm l := by
  rcases sortByKey_ok_elim h with ⟨ps, ht, hms⟩
  have h1 : (List.insertionSort (pairLe le) ps).Perm ps := List.perm_insertionSort _ _
  have h2 := h1.map Prod.snd
  rw [traverseExcept_decorate_map_snd ht] at h2
  rw [hms]
  exact h2

theorem sortByKey_length {α κ : Type} {key : α → Except MatchError κ}
    {le : κ → κ → Bool} {l ms : List α} (h : sortByKey key le l = Except.ok ms) :
    ms.length = l.length :=
  (sortByKey_perm h).length_eq

theorem sortByKey_keys {α κ : Type} {key : α → Except MatchError κ}
    {le : κ → κ → Bool} {l ms : List α} (h : sortByKey key le l = Except.ok ms) :
    ∀ m ∈ ms, ∃ k, key m = Except.ok k := by
  intro m hm
  rcases sortByKey_ok_elim h with ⟨ps, ht, hms⟩
  rw [hms] at hm
  rcases List.mem_map.mp hm with ⟨p, hp, hpm⟩
  have hp' : p ∈ ps := ((List.perm_insertionSort (pairLe le) ps).mem_iff).mp hp
  exact ⟨p.1, hpm ▸ traverseExcept_decorate_keys ht p hp'⟩

theorem sortByKey_sorted {α κ : Type} {key : α → Except MatchError κ}
    {le : κ → κ → Bool} {l ms : List α}
    (htot : ∀ a b, le a b = true ∨ le b a = true)
    (htrans : ∀ a b c, le a b = true → le b c = true → le a c = true)
    (h : sortByKey key le l = Except.ok ms) :
    ms.Pairwise (fun a b => ∃ ka kb, key a = Except.ok ka ∧ key b = Except.ok kb ∧
      le ka kb = true) := by
  rcases sortByKey_ok_elim h with ⟨ps, ht, hms⟩
  haveI : IsTotal (κ × α) (pairLe le) := ⟨fun a b => htot a.1 b.1⟩
  haveI : IsTrans (κ × α) (pairLe le) := ⟨fun a b c hab hbc => htrans a.1 b.1 c.1 hab hbc⟩
  have hs : (List.insertionSort (pairLe le) ps).Pairwise (pairLe le) :=
    List.sorted_insertionSort (pairLe le) ps
  have hkeys : ∀ p ∈ List.insertionSort (pairLe le) ps, key p.2 = Except.ok p.1 := by
    intro p hp
    exact traverseExcept_decorate_keys ht p
      ((List.perm_insertionSort (pairLe le) ps).mem_iff.mp hp)
  have hs' : (List.insertionSort (pairLe le) ps).Pairwise
      (fun p q => ∃ ka kb, key p.2 = Except.ok ka ∧ key q.2 = Except.ok kb ∧
        le ka kb = true) := by
    refine List.Pairwise.imp_of_mem ?_ hs
    intro p q hp hq hpq
    exact ⟨p.1, q.1, hkeys p hp, hkeys q hq, hpq⟩
  rw [hms]
  exact (List.pairwise_map).mpr hs'

theorem sortByKey_stable {α κ : Type} {key : α → Except MatchError κ}
    {le : κ → κ → Bool} {l ms : List α} {a b : α} {ka kb : κ}
    (h : sortByKey key le l = Except.ok ms)
    (hka : key a = Except.ok ka) (hkb : key b = Except.ok kb)
    (hle : le ka kb = true) (hab : List.Sublist [a, b] l) :
    List.Sublist [a, b] ms := by
  rcases sortByKey_ok_elim h with ⟨ps, ht, hms⟩
  have hsnd : ps.map Prod.snd = l := traverseExcept_decorate_map_snd ht
  have hab' : List.Sublist [a, b] (ps.map Prod.snd) := hsnd ▸ hab
  rcases List.sublist_map_iff.mp hab' with ⟨ps', hps', hmap⟩
  cases ps' with
  | nil => exact absurd hmap (by simp)
  | cons pa rest =>
    cases rest with
    | nil => exact absurd hmap (by simp)
    | cons pb rest2 =>
      cases rest2 with
      | cons x xs => exact absurd hmap (by simp)
      | nil =>
        simp only [List.map_cons, List.map_nil, List.cons.injEq, and_true] at hmap
        obtain ⟨ha, hb⟩ := hmap
        have hpa : pa ∈ ps := hps'.subset (List.mem_cons_self _ _)
        have hpb : pb ∈ ps := hps'.subset (List.mem_cons_of_mem _ (List.mem_cons_self _ _))
        have hka' : key pa.2 = Except.ok pa.1 := traverseExcept_decorate_keys ht pa hpa
        have hkb' : key pb.2 = Except.ok pb.1 := traverseExcept_decorate_keys ht pb hpb
        have hka2 : key a = Except.ok pa.1 := by rw [ha]; exact hka'
        have hkb2 : key b = Except.ok pb.1 := by rw [hb]; exact hkb'
        have e1 : pa.1 = ka := Except.ok.inj (hka2.symm.trans hka)
        have e2 : pb.1 = kb := Except.ok.inj (hkb2.symm.trans hkb)
        have hr : pairLe le pa pb := by
          unfold pairLe
          rw [e1, e2]
          exact hle
        have hsub : List.Sublist [pa, pb] (List.insertionSort (pairLe le) ps) :=
          List.pair_sublist_insertionSort hr hps'
        have hsub2 := hsub.map Prod.snd
        simp only [List.map_cons, List.map_nil] at hsub2
        rw [hms, ha, hb]
        exact hsub2

theorem matcherSort_ok_elim {n : Nat} {pid : Int} {db : Database} {out : List Int}
    (h : matcherSort n pid db = Except.ok out) :
    ∃ mentee ms, dbFirstMentee db pid = Except.ok mentee ∧
      sortByKey (mentorSortKey mentee) lex2 db.mentors = Except.ok ms ∧
      traverseExcept (fun m => getKey m.profile_id) (ms.take n) = Except.ok out := by
  unfold matcherSort at h
  rcases exceptBind_ok h with ⟨mentee, h1, h⟩
  rcases exceptBind_ok h with ⟨ms, h2, h3⟩
  exact ⟨mentee, ms, h1, h2, h3⟩

theorem matcherSearch_ok_elim {n : Nat} {pid : Int} {db : Database} {out : List Int}
    (h : matcherSearch n pid db = Except.ok out) :
    ∃ mentee subj, dbFirstMentee db pid = Except.ok mentee ∧
      getKey mentee.subject = Except.ok subj ∧
      traverseExcept (fun m => getKey m.profile_id) ((db.searchMentors subj).take n) =
        Except.ok out := by
  unfold matcherSearch at h
  rcases exceptBind_ok h with ⟨mentee, h1, h⟩
  rcases exceptBind_ok h with ⟨subj, h2, h3⟩
  exact ⟨mentee, subj, h1, h2, h3⟩

theorem matcherSortSearch_ok_elim {n : Nat} {pid : Int} {db : Database} {out : List Int}
    (h : matcherSortSearch n pid db = Except.ok out) :
    ∃ mentee subj ms, dbFirstMentee db pid = Except.ok mentee ∧
      getKey mentee.subject = Except.ok subj ∧
      sortByKey (sortSearchKey mentee) lex4 (db.searchMentors subj) = Except.ok ms ∧
      traverseExcept (fun m => getKey m.profile_id) (ms.take n) = Except.ok out := by
  unfold matcherSortSearch at h
  rcases exceptBind_ok h with ⟨mentee, h1, h⟩
  rcases exceptBind_ok h with ⟨subj, h2, h⟩
  rcases exceptBind_ok h with ⟨ms, h3, h4⟩
  exact ⟨mentee, subj, ms, h1, h2, h3, h4⟩

theorem matcherSortSearchResource_ok_elim {n : Nat} {iid : Int} {db : Database}
    {out : List Int} (h : matcherSortSearchResource n iid db = Except.ok out) :
    ∃ resource subj ms, dbFirstResource db iid = Except.ok resource ∧
      getKey resource.subject = Except.ok subj ∧
      sortByKey (resourceSortKey resource) lex4 (db.searchMentees subj) = Except.ok ms ∧
      traverseExcept (fun m => getKey m.profile_id) (ms.take n) = Except.ok out := by
  unfold matcherSortSearchResource at h
  rcases exceptBind_ok h with ⟨resource, h1, h⟩
  rcases exceptBind_ok h with ⟨subj, h2, h⟩
  rcases exceptBind_ok h with ⟨ms, h3, h4⟩
  exact ⟨resource, subj, ms, h1, h2, h3, h4⟩

theorem matcherRandom_ok_elim {n : Nat} {pid : Int} {idx : List Nat} {db : Database}
    {out : List Int} (h : matcherRandom n pid idx db = Except.ok out) :
    ∃ results, sample db.mentors n idx = Except.ok results ∧
      traverseExcept (fun m => getKey m.profile_id) results = Except.ok out := by
  unfold matcherRandom at h
  rcases exceptBind_ok h with ⟨results, h1, h2⟩
  exact ⟨results, h1, h2⟩

theorem lex2_total : ∀ p q : Bool × Bool, lex2 p q = true ∨ lex2 q p = true := by decide

theorem lex2_trans : ∀ p q r : Bool × Bool,
    lex2 p q = true → lex2 q r = true → lex2 p r = true := by decide

theorem lex2_refl : ∀ p : Bool × Bool, lex2 p p = true := by decide

theorem lex2_bot : ∀ p : Bool × Bool, lex2 p (false, false) = true → p = (false, false) := by
  decide

theorem lex4_total : ∀ p q : Bool × Bool × Bool × Bool,
    lex4 p q = true ∨ lex4 q p = true := by decide

theorem lex4_trans : ∀ p q r : Bool × Bool × Bool × Bool,
    lex4 p q = true → lex4 q r = true → lex4 p r = true := by decide

theorem lex4_refl : ∀ p : Bool × Bool × Bool × Bool, lex4 p p = true := by decide

theorem mentorSortKey_bot_iff {mentee : Mentee} {m : Mentor} {k : Bool × Bool}
    (h : mentorSortKey mentee m = Except.ok k) :
    (k = (false, false) ↔ bothMatch mentee m) := by
  unfold mentorSortKey at h
  cases hs : mentee.subject with
  | none => rw [hs] at h; exact absurd h (by simp [getKey, Bind.bind, Except.bind])
  | some s1 =>
    cases hms : m.subject with
    | none => rw [hs, hms] at h; exact absurd h (by simp [getKey, Bind.bind, Except.bind])
    | some s2 =>
      cases he : mentee.experience_level with
      | none =>
        rw [hs, hms, he] at h
        exact absurd h (by simp [getKey, Bind.bind, Except.bind])
      | some e1 =>
        cases hme : m.experience_level with
        | none =>
          rw [hs, hms, he, hme] at h
          exact absurd h (by simp [getKey, Bind.bind, Except.bind])
        | some e2 =>
          rw [hs, hms, he, hme] at h
          simp only [getKey, Bind.bind, Except.bind, pure] at h
          have hk : k = (s1 != s2, e1 != e2) := (Except.ok.inj h).symm
          subst hk
          unfold bothMatch
          rw [hs, hms, he, hme]
          constructor
          · intro hkk
            have h1 : (s1 != s2) = false := congrArg Prod.fst hkk
            have h2 : (e1 != e2) = false := congrArg Prod.snd hkk
            exact ⟨by rw [bne_eq_false_iff_eq.mp h1], by rw [bne_eq_false_iff_eq.mp h2]⟩
          · intro hkk
            obtain ⟨h1, h2⟩ := hkk
            have e1' : s2 = s1 := Option.some.inj h1
            have e2' : e2 = e1 := Option.some.inj h2
            subst e1'
            subst e2'
            simp

/-- C1: the claim says a `profile_id` resolving to no mentee record makes
the match operation fail with a not-found condition (it does: no result is
returned) and that the API layer translates this failure into a
404-equivalent client error. The code does not: the `/match` route has no
not-found check, so the failure reaches `all_exception_handler`, which
answers with a generic 500 "server error". At profile_id 99 (absent from
the Mentees collection of `dbScenario`) the endpoint returns status 500,
not a 404-equivalent. -/
theorem c1_not_found_becomes_500 :
    matcherSortSearch 3 99 dbScenario = Except.error MatchError.notFound ∧
    matchEndpoint 99 3 dbScenario = Sum.inl (all_exception_handler MatchError.notFound) ∧
    (all_exception_handler MatchError.notFound).status_code = 500 ∧
    ¬ (all_exception_handler MatchError.notFound).status_code = 404 := by
  refine ⟨rfl, rfl, rfl, ?_⟩
  decide

/-- C2: in `MatcherSort`'s ranked sequence, a mentor matching the mentee on
both `subject` and `experience_level` ranks strictly before any mentor that
does not match on both fields; and on the spec's worked scenario,
`MatcherSort` with n_matches = 2 returns [1, 2]. -/
theorem c2_both_match_ranks_first :
    (∀ (mentee : Mentee) (l ms : List Mentor) (i j : Fin ms.length),
        sortByKey (mentorSortKey mentee) lex2 l = Except.ok ms →
        bothMatch mentee (ms.get i) → ¬ bothMatch mentee (ms.get j) →
        (i : Nat) < (j : Nat)) ∧
    matcherSort 2 7 dbScenario = Except.ok [1, 2] := by
  constructor
  · intro mentee l ms i j h hi hj
    have hmi : ms.get i ∈ ms := ms.get_mem i.1 i.2
    have hmj : ms.get j ∈ ms := ms.get_mem j.1 j.2
    rcases sortByKey_keys h (ms.get i) hmi with ⟨ki, hki⟩
    rcases sortByKey_keys h (ms.get j) hmj with ⟨kj, hkj⟩
    have hki_bot : ki = (false, false) := (mentorSortKey_bot_iff hki).mpr hi
    have hkj_bot : kj ≠ (false, false) := fun hk => hj ((mentorSortKey_bot_iff hkj).mp hk)
    have hp := sortByKey_sorted lex2_total lex2_trans h
    rcases lt_trichotomy (i : Nat) (j : Nat) with hlt | heq | hgt
    · exact hlt
    · exfalso
      have : i = j := Fin.ext heq
      subst this
      exact hj hi
    · exfalso
      have hS := List.pairwise_iff_get.mp hp j i hgt
      rcases hS with ⟨ka, kb, hka, hkb, hle⟩
      have e1 : ka = kj := Except.ok.inj (hka.symm.trans hkj)
      have e2 : kb = ki := Except.ok.inj (hkb.symm.trans hki)
      rw [e1, e2, hki_bot] at hle
      exact hkj_bot (lex2_bot kj hle)
  · rfl

/-- Witness for C2: on the scenario database, mentor 1 matches the mentee
on both fields, mentor 2 does not, and the theorem places position 0
strictly before position 1 of the ranked sequence. -/
theorem c2_both_match_ranks_first_witness :
    bothMatch menteeS mS1 ∧ ¬ bothMatch menteeS mS2 ∧ (0 : Nat) < 1 := by
  refine ⟨by decide, by decide, ?_⟩
  exact c2_both_match_ranks_first.1 menteeS mentorsS msS ⟨0, by decide⟩ ⟨1, by decide⟩
    (by decide) (by decide) (by decide)

/-- C10: `MatcherRandom` never reads the mentee record: its result does not
depend on `profile_id` (two runs with the same population and the same
random positions agree for any two identifiers, resolvable or not), and it
never fails with the not-found condition. -/
theorem c10_random_ignores_profile_id :
    (∀ (n : Nat) (pid1 pid2 : Int) (idx : List Nat) (db : Database),
        matcherRandom n pid1 idx db = matcherRandom n pid2 idx db) ∧
    (∀ (n : Nat) (pid : Int) (idx : List Nat) (db : Database),
        matcherRandom n pid idx db ≠ Except.error MatchError.notFound) := by
  constructor
  · intro n pid1 pid2 idx db
    rfl
  · intro n pid idx db h
    unfold matcherRandom sample at h
    by_cases hle : n ≤ db.mentors.length
    · rw [if_pos hle] at h
      simp only [Bind.bind, Except.bind] at h
      rcases traverseExcept_error_mem h with ⟨m, _, hm⟩
      cases hpid : m.profile_id with
      | some v => rw [hpid] at hm; exact absurd hm (by simp [getKey])
      | none =>
        rw [hpid] at hm
        simp only [getKey] at hm
        exact MatchError.noConfusion (Except.error.inj hm)
    · rw [if_neg hle] at h
      simp only [Bind.bind, Except.bind] at h
      exact MatchError.noConfusion (Except.error.inj h)

/-- C4: when n_matches is at least the candidate count, MatcherSort,
MatcherSortSearch and MatcherSearch return the full candidate set (result
length equals candidate count); when n_matches is below the candidate count
the result length equals n_matches. The candidate set is the full Mentors
scan for Sort and the fuzzy-search hits on the mentee's subject for
SortSearch and Search. -/
theorem c4_result_lengths :
    (∀ (n : Nat) (pid : Int) (db : Database) (out : List Int),
        matcherSort n pid db = Except.ok out →
        (db.mentors.length ≤ n → out.length = db.mentors.length) ∧
        (n < db.mentors.length → out.length = n)) ∧
    (∀ (n : Nat) (pid : Int) (db : Database) (mentee : Mentee) (subj : String)
        (out : List Int),
        matcherSortSearch n pid db = Except.ok out →
        dbFirstMentee db pid = Except.ok mentee →
        getKey mentee.subject = Except.ok subj →
        ((db.searchMentors subj).length ≤ n → out.length = (db.searchMentors subj).length) ∧
        (n < (db.searchMentors subj).length → out.length = n)) ∧
    (∀ (n : Nat) (pid : Int) (db : Database) (mentee : Mentee) (subj : String)
        (out : List Int),
        matcherSearch n pid db = Except.ok out →
        dbFirstMentee db pid = Except.ok mentee →
        getKey mentee.subject = Except.ok subj →
        ((db.searchMentors subj).length ≤ n → out.length = (db.searchMentors subj).length) ∧
        (n < (db.searchMentors subj).length → out.length = n)) := by
  refine ⟨?_, ?_, ?_⟩
  · intro n pid db out h
    rcases matcherSort_ok_elim h with ⟨mentee, ms, _, h2, h3⟩
    have h4 := traverseExcept_ok_length h3
    rw [List.length_take, sortByKey_length h2] at h4
    constructor
    · intro hc
      rw [h4]
      exact min_eq_right hc
    · intro hc
      rw [h4]
      exact min_eq_left (Nat.le_of_lt hc)
  · intro n pid db mentee subj out h h1 h2
    rcases matcherSortSearch_ok_elim h with ⟨mentee', subj', ms, h1', h2', h3, h4⟩
    have em : mentee' = mentee := Except.ok.inj (h1'.symm.trans h1)
    subst em
    have es : subj' = subj := Except.ok.inj (h2'.symm.trans h2)
    subst es
    have h5 := traverseExcept_ok_length h4
    rw [List.length_take, sortByKey_length h3] at h5
    constructor
    · intro hc
      rw [h5]
      exact min_eq_right hc
    · intro hc
      rw [h5]
      exact min_eq_left (Nat.le_of_lt hc)
  · intro n pid db mentee subj out h h1 h2
    rcases matcherSearch_ok_elim h with ⟨mentee', subj', h1', h2', h3⟩
    have em : mentee' = mentee := Except.ok.inj (h1'.symm.trans h1)
    subst em
    have es : subj' = subj := Except.ok.inj (h2'.symm.trans h2)
    subst es
    have h4 := traverseExcept_ok_length h3
    rw [List.length_take] at h4
    constructor
    · intro hc
      rw [h4]
      exact min_eq_right hc
    · intro hc
      rw [h4]
      exact min_eq_left (Nat.le_of_lt hc)

/-- Witness for C4: on the scenario database n_matches = 5 exceeds the
population of 3 and all three ids come back; on the full-field database
n_matches = 2 is below the three search hits and exactly 2 ids come back. -/
theorem c4_result_lengths_witness :
    matcherSort 5 7 dbScenario = Except.ok [1, 2, 3] ∧
    ([1, 2, 3] : List Int).length = dbScenario.mentors.length ∧
    matcherSortSearch 2 7 dbFull = Except.ok [1, 2] ∧
    ([1, 2] : List Int).length = 2 := by
  refine ⟨rfl, ?_, rfl, ?_⟩
  · exact (c4_result_lengths.1 5 7 dbScenario [1, 2, 3] rfl).1 (by decide)
  · exact (c4_result_lengths.2.1 2 7 dbFull menteeF "Web" [1, 2] rfl rfl rfl).2 (by decide)

/-- C5: whenever MatcherSortSearch succeeds, the candidate sequence it
ranked is a permutation of the fuzzy-search hits on the mentee's subject,
ordered ascending by the `sortSearchKey` 4-tuple under `lex4` (false ranks
before true, the last component being the mentor's raw industry_knowledge),
and the output is the profile ids of its first n_matches elements. -/
theorem c5_sortsearch_orders_by_tuple :
    ∀ (n : Nat) (pid : Int) (db : Database) (out : List Int),
      matcherSortSearch n pid db = Except.ok out →
      ∃ (mentee : Mentee) (subj : String) (ms : List Mentor),
        dbFirstMentee db pid = Except.ok mentee ∧
        getKey mentee.subject = Except.ok subj ∧
        ms.Perm (db.searchMentors subj) ∧
        ms.Pairwise (fun a b => ∃ ka kb, sortSearchKey mentee a = Except.ok ka ∧
          sortSearchKey mentee b = Except.ok kb ∧ lex4 ka kb = true) ∧
        traverseExcept (fun m => getKey m.profile_id) (ms.take n) = Except.ok out := by
  intro n pid db out h
  rcases matcherSortSearch_ok_elim h with ⟨mentee, subj, ms, h1, h2, h3, h4⟩
  exact ⟨mentee, subj, ms, h1, h2, sortByKey_perm h3,
    sortByKey_sorted lex4_total lex4_trans h3, h4⟩

/-- Witness for C5 on the full-field database with n_matches = 2. -/
theorem c5_sortsearch_orders_by_tuple_witness :
    matcherSortSearch 2 7 dbFull = Except.ok [1, 2] ∧
    ∃ (mentee : Mentee) (subj : String) (ms : List Mentor),
      dbFirstMentee dbFull 7 = Except.ok mentee ∧
      getKey mentee.subject = Except.ok subj ∧
      ms.Perm (dbFull.searchMentors subj) ∧
      ms.Pairwise (fun a b => ∃ ka kb, sortSearchKey mentee a = Except.ok ka ∧
        sortSearchKey mentee b = Except.ok kb ∧ lex4 ka kb = true) ∧
      traverseExcept (fun m => getKey m.profile_id) (ms.take 2) = Except.ok [1, 2] :=
  ⟨rfl, c5_sortsearch_orders_by_tuple 2 7 dbFull [1, 2] rfl⟩

/-- C6: every profile id MatcherSortSearch returns belongs to a mentor in
the Record Store's fuzzy-search result for the mentee's subject — the same
candidate pool MatcherSearch slices its result from. -/
theorem c6_sortsearch_subset_of_search :
    ∀ (n : Nat) (pid : Int) (db : Database) (mentee : Mentee) (subj : String)
      (out : List Int),
      matcherSortSearch n pid db = Except.ok out →
      dbFirstMentee db pid = Except.ok mentee →
      getKey mentee.subject = Except.ok subj →
      ∀ x ∈ out, ∃ m ∈ db.searchMentors subj, m.profile_id = some x := by
  intro n pid db mentee subj out h h1 h2 x hx
  rcases matcherSortSearch_ok_elim h with ⟨mentee', subj', ms, h1', h2', h3, h4⟩
  have em : mentee = mentee' := Except.ok.inj (h1.symm.trans h1')
  subst em
  have es : subj = subj' := Except.ok.inj (h2.symm.trans h2')
  subst es
  rcases traverseExcept_ok_mem h4 x hx with ⟨m, hm, hgm⟩
  have hm2 : m ∈ ms := (List.take_sublist n ms).subset hm
  have hm3 : m ∈ db.searchMentors subj := (sortByKey_perm h3).mem_iff.mp hm2
  refine ⟨m, hm3, ?_⟩
  cases hpid : m.profile_id with
  | none => rw [hpid] at hgm; exact absurd hgm (by simp [getKey])
  | some v =>
    rw [hpid] at hgm
    simp only [getKey] at hgm
    exact congrArg some (Except.ok.inj hgm)

/-- Witness for C6: id 1, returned on the full-field database, is carried
by a mentor among the fuzzy-search hits for "Web". -/
theorem c6_sortsearch_subset_of_search_witness :
    ∃ m ∈ dbFull.searchMentors "Web", m.profile_id = some 1 :=
  c6_sortsearch_subset_of_search 2 7 dbFull menteeF "Web" [1, 2] rfl rfl rfl 1
    (by simp)

/-- C8: with a fixed candidate sequence the Sort and SortSearch matchers
are deterministic — in this pure embedding of one database state, two runs
on identical inputs are definitionally equal — and the substantive content
is the tie-break policy: a pair of candidates tied on the ranking key keeps
its candidate-sequence order in the ranked sequence (Python's sort is
stable). -/
theorem c8_deterministic_and_stable :
    (∀ (n : Nat) (pid : Int) (db : Database),
        matcherSort n pid db = matcherSort n pid db ∧
        matcherSortSearch n pid db = matcherSortSearch n pid db) ∧
    (∀ (mentee : Mentee) (l ms : List Mentor) (a b : Mentor) (ka kb : Bool × Bool),
        sortByKey (mentorSortKey mentee) lex2 l = Except.ok ms →
        mentorSortKey mentee a = Except.ok ka →
        mentorSortKey mentee b = Except.ok kb →
        ka = kb → List.Sublist [a, b] l → List.Sublist [a, b] ms) ∧
    (∀ (mentee : Mentee) (l ms : List Mentor) (a b : Mentor)
        (ka kb : Bool × Bool × Bool × Bool),
        sortByKey (sortSearchKey mentee) lex4 l = Except.ok ms →
        sortSearchKey mentee a = Except.ok ka →
        sortSearchKey mentee b = Except.ok kb →
        ka = kb → List.Sublist [a, b] l → List.Sublist [a, b] ms) := by
  refine ⟨fun n pid db => ⟨rfl, rfl⟩, ?_, ?_⟩
  · intro mentee l ms a b ka kb h hka hkb heq hab
    exact sortByKey_stable h hka hkb (by rw [heq]; exact lex2_refl kb) hab
  · intro mentee l ms a b ka kb h hka hkb heq hab
    exact sortByKey_stable h hka hkb (by rw [heq]; exact lex4_refl kb) hab

/-- Witness for C8: mentors mT1 and mT2 tie on the MatcherSort ranking key
and keep their candidate order in the ranked sequence. -/
theorem c8_deterministic_and_stable_witness :
    mentorSortKey menteeF mT1 = Except.ok (false, false) ∧
    mentorSortKey menteeF mT2 = Except.ok (false, false) ∧
    List.Sublist [mT1, mT2] [mT1, mT2] := by
  refine ⟨rfl, rfl, ?_⟩
  exact c8_deterministic_and_stable.2.1 menteeF [mT1, mT2] [mT1, mT2] mT1 mT2
    (false, false) (false, false) (by decide) rfl rfl rfl (List.Sublist.refl _)

/-- C7: the resource-matching counterpart (modelled from the spec, its
definition not being under src/) satisfies the MatcherSortSearch contract
with item_id in place of profile_id and the mentee/resource roles swapped:
an unresolvable item_id fails with the not-found condition, and a
successful run returns the first n_matches mentee profile ids of the
candidate pool (the fuzzy-search hits on the resource's subject) ranked
ascending by `resourceSortKey` — so its length is the minimum of n_matches
and the pool size, and every returned id belongs to the pool. -/
theorem c7_resource_matcher_contract :
    (∀ (n : Nat) (iid : Int) (db : Database),
        dbFirstResource db iid = Except.error MatchError.notFound →
        matcherSortSearchResource n iid db = Except.error MatchError.notFound) ∧
    (∀ (n : Nat) (iid : Int) (db : Database) (resource : Resource) (subj : String)
        (out : List Int),
        matcherSortSearchResource n iid db = Except.ok out →
        dbFirstResource db iid = Except.ok resource →
        getKey resource.subject = Except.ok subj →
        out.length = min n (db.searchMentees subj).length ∧
        (∀ x ∈ out, ∃ m ∈ db.searchMentees subj, m.profile_id = some x) ∧
        ∃ ms : List Mentee, ms.Perm (db.searchMentees subj) ∧
          ms.Pairwise (fun a b => ∃ ka kb, resourceSortKey resource a = Except.ok ka ∧
            resourceSortKey resource b = Except.ok kb ∧ lex4 ka kb = true) ∧
          traverseExcept (fun m => getKey m.profile_id) (ms.take n) = Except.ok out) := by
  constructor
  · intro n iid db h
    unfold matcherSortSearchResource
    rw [h]
    rfl
  · intro n iid db resource subj out h h1 h2
    rcases matcherSortSearchResource_ok_elim h with ⟨resource', subj', ms, h1', h2', h3, h4⟩
    have er : resource = resource' := Except.ok.inj (h1.symm.trans h1')
    subst er
    have es : subj = subj' := Except.ok.inj (h2.symm.trans h2')
    subst es
    refine ⟨?_, ?_, ms, sortByKey_perm h3, sortByKey_sorted lex4_total lex4_trans h3, h4⟩
    · have h5 := traverseExcept_ok_length h4
      rw [List.length_take, sortByKey_length h3] at h5
      exact h5
    · intro x hx
      rcases traverseExcept_ok_mem h4 x hx with ⟨m, hm, hgm⟩
      have hm2 : m ∈ ms := (List.take_sublist n ms).subset hm
      have hm3 : m ∈ db.searchMentees subj := (sortByKey_perm h3).mem_iff.mp hm2
      refine ⟨m, hm3, ?_⟩
      cases hpid : m.profile_id with
      | none => rw [hpid] at hgm; exact absurd hgm (by simp [getKey])
      | some v =>
        rw [hpid] at hgm
        simp only [getKey] at hgm
        exact congrArg some (Except.ok.inj hgm)

/-- Witness for C7: item_id 999 resolves to no resource and fails with
not-found; item_id 5 resolves, and with n_matches = 1 the matcher returns
the single best mentee id 21 out of the two candidates. -/
theorem c7_resource_matcher_contract_witness :
    matcherSortSearchResource 1 999 dbRes = Except.error MatchError.notFound ∧
    matcherSortSearchResource 1 5 dbRes = Except.ok [21] ∧
    ([21] : List Int).length = min 1 (dbRes.searchMentees "Web").length := by
  refine ⟨?_, rfl, ?_⟩
  · exact c7_resource_matcher_contract.1 1 999 dbRes rfl
  · exact (c7_resource_matcher_contract.2 1 5 dbRes resourceR "Web" [21] rfl rfl rfl).1

theorem isOk_false_of_not_ok {α : Type} {x : Except MatchError α}
    (h : ∀ a, x ≠ Except.ok a) : x.isOk = false := by
  cases x with
  | ok a => exact absurd rfl (h a)
  | error e => rfl

theorem mentorSortKey_not_ok_of_missing {mentee : Mentee} {m : Mentor}
    (hmiss : m.subject = none ∨ m.experience_level = none) (k : Bool × Bool) :
    mentorSortKey mentee m ≠ Except.ok k := by
  intro h
  unfold mentorSortKey at h
  cases h1 : mentee.subject <;> cases h2 : m.subject <;>
    cases h3 : mentee.experience_level <;> cases h4 : m.experience_level <;>
    simp_all [getKey, Bind.bind, Except.bind]

theorem sortSearchKey_not_ok_of_missing {mentee : Mentee} {m : Mentor}
    (hmiss : m.subject = none ∨ m.experience_level = none ∨
      m.pair_programming = none ∨ m.industry_knowledge = none)
    (k : Bool × Bool × Bool × Bool) :
    sortSearchKey mentee m ≠ Except.ok k := by
  intro h
  unfold sortSearchKey at h
  cases h1 : mentee.subject <;> cases h2 : m.subject <;>
    cases h3 : mentee.experience_level <;> cases h4 : m.experience_level <;>
    cases h5 : mentee.pair_programming <;> cases h6 : m.pair_programming <;>
    cases h7 : m.industry_knowledge <;>
    simp_all [getKey, Bind.bind, Except.bind]

/-- C9 counterexample: the claim lists `profile_id` among the fields whose
absence must make the matchers fail fast, but a candidate record with no
`profile_id` that the slice drops before id extraction does not fail: on
`dbC9`, whose mentor scan contains `mBad` with no profile_id, MatcherSort
with n_matches = 1 returns the result [10]. -/
theorem c9_counterexample :
    (∃ m ∈ dbC9.mentors, m.profile_id = none) ∧
    matcherSort 1 7 dbC9 = Except.ok [10] := by
  exact ⟨⟨mBad, by decide, rfl⟩, rfl⟩

/-- C9 (amended): a candidate record missing a field read by the ranking
key — `subject` or `experience_level` for MatcherSort; those plus
`pair_programming` and `industry_knowledge` for MatcherSortSearch — makes
the matcher fail fast with an error rather than return a result, because
CPython computes every candidate's key before sorting. `profile_id` is not
read during ranking: a record missing only `profile_id` fails the run when
it survives truncation into the returned slice (and, per the
counterexample, not necessarily otherwise). -/
theorem c9_missing_field_fails_fast :
    (∀ (n : Nat) (pid : Int) (db : Database) (m : Mentor), m ∈ db.mentors →
        m.subject = none ∨ m.experience_level = none →
        (matcherSort n pid db).isOk = false) ∧
    (∀ (n : Nat) (pid : Int) (db : Database) (mentee : Mentee) (subj : String)
        (m : Mentor),
        dbFirstMentee db pid = Except.ok mentee →
        getKey mentee.subject = Except.ok subj →
        m ∈ db.searchMentors subj →
        m.subject = none ∨ m.experience_level = none ∨ m.pair_programming = none ∨
          m.industry_knowledge = none →
        (matcherSortSearch n pid db).isOk = false) ∧
    (∀ (n : Nat) (pid : Int) (db : Database) (mentee : Mentee) (ms : List Mentor)
        (m : Mentor),
        dbFirstMentee db pid = Except.ok mentee →
        sortByKey (mentorSortKey mentee) lex2 db.mentors = Except.ok ms →
        m ∈ ms.take n → m.profile_id = none →
        (matcherSort n pid db).isOk = false) := by
  refine ⟨?_, ?_, ?_⟩
  · intro n pid db m hm hmiss
    apply isOk_false_of_not_ok
    intro out h
    rcases matcherSort_ok_elim h with ⟨mentee, ms, _, h2, _⟩
    have hm2 : m ∈ ms := (sortByKey_perm h2).mem_iff.mpr hm
    rcases sortByKey_keys h2 m hm2 with ⟨k, hk⟩
    exact mentorSortKey_not_ok_of_missing hmiss k hk
  · intro n pid db mentee subj m h1 h2 hm hmiss
    apply isOk_false_of_not_ok
    intro out h
    rcases matcherSortSearch_ok_elim h with ⟨mentee', subj', ms, h1', h2', h3, _⟩
    have em : mentee = mentee' := Except.ok.inj (h1.symm.trans h1')
    subst em
    have es : subj = subj' := Except.ok.inj (h2.symm.trans h2')
    subst es
    have hm2 : m ∈ ms := (sortByKey_perm h3).mem_iff.mpr hm
    rcases sortByKey_keys h3 m hm2 with ⟨k, hk⟩
    exact sortSearchKey_not_ok_of_missing hmiss k hk
  · intro n pid db mentee ms m h1 h2 hm hmid
    apply isOk_false_of_not_ok
    intro out h
    rcases matcherSort_ok_elim h with ⟨mentee', ms', h1', h2', h3⟩
    have em : mentee = mentee' := Except.ok.inj (h1.symm.trans h1')
    subst em
    have ems : ms = ms' := Except.ok.inj (h2.symm.trans h2')
    subst ems
    rcases traverseExcept_ok_forall h3 m hm with ⟨y, hy⟩
    have hy2 : getKey m.profile_id = Except.ok y := hy
    rw [hmid] at hy2
    exact absurd hy2 (by simp [getKey])

/-- Witness for C9 (amended): on `dbC9b`, whose mentor scan contains
`mNoSubj` with no `subject`, MatcherSort returns no result for any
n_matches shown here at 1; and on `dbC9` the record missing `profile_id`
does survive a slice of 2, so the run fails. -/
theorem c9_missing_field_fails_fast_witness :
    (matcherSort 1 7 dbC9b).isOk = false ∧ (matcherSort 2 7 dbC9).isOk = false := by
  constructor
  · exact c9_missing_field_fails_fast.1 1 7 dbC9b mNoSubj (by decide) (Or.inl rfl)
  · exact c9_missing_field_fails_fast.2.2 2 7 dbC9 menteeS [mGood, mBad] mBad rfl rfl
      (by decide) rfl

theorem filterMap_profile_eq_map {l : List Mentor}
    (h : ∀ m ∈ l, m.profile_id ≠ none) :
    l.filterMap Mentor.profile_id = l.map (fun m => m.profile_id.getD 0) := by
  induction l with
  | nil => rfl
  | cons x xs ih =>
    have hx : x.profile_id ≠ none := h x (List.mem_cons_self x xs)
    cases hpid : x.profile_id with
    | none => exact absurd hpid hx
    | some v =>
      simp [List.filterMap_cons, hpid,
        ih (fun m hm => h m (List.mem_cons_of_mem x hm))]

theorem traverseExcept_sample_eq_map {l : List Mentor} :
    ∀ {idx : List Nat}, (∀ i ∈ idx, i < l.length) → (∀ m ∈ l, m.profile_id ≠ none) →
      traverseExcept (fun m => getKey m.profile_id) (idx.filterMap fun i => l[i]?) =
        Except.ok (idx.map fun i => ((l[i]?).bind Mentor.profile_id).getD 0) := by
  intro idx
  induction idx with
  | nil => intro _ _; rfl
  | cons i idx ih =>
    intro hb hids
    have hi : i < l.length := hb i (List.mem_cons_self i idx)
    have hgi : l[i]? = some l[i] := List.getElem?_eq_getElem hi
    have hmem : l[i] ∈ l := List.getElem?_mem hgi
    cases hpid : (l[i]).profile_id with
    | none => exact absurd hpid (hids _ hmem)
    | some v =>
      have ih2 := ih (fun j hj => hb j (List.mem_cons_of_mem i hj)) hids
      simp only [List.filterMap_cons, hgi, List.map_cons]
      simp only [traverseExcept, ih2]
      simp [getKey, hpid, hgi]

/-- C3 counterexample: the claim promises a duplicate-free result for every
mentor population, but on a population holding two documents that share
profile_id 7, sampling the two distinct positions 0 and 1 (a choice
`random.sample` can make) returns [7, 7], which has a duplicate. -/
theorem c3_counterexample :
    sampleChoice dbDup.mentors.length 2 [0, 1] ∧
    matcherRandom 2 0 [0, 1] dbDup = Except.ok [7, 7] ∧
    ¬ ([7, 7] : List Int).Nodup := by
  exact ⟨by decide, rfl, by decide⟩

/-- C3 (amended): MatcherRandom fails with the insufficient-candidates
condition exactly when n_matches exceeds the population size — proved with
no assumption on the drawn positions, since `random.sample` validates the
requested size before drawing. Under the Record Store invariant that every
mentor record carries `profile_id` (spec section 3) and for `idx` a choice
of positions the generator could make, a run with n_matches within the
population succeeds and returns the n_matches profile_id values at the
chosen distinct positions — a list that is duplicate-free whenever the
population's profile_id values are duplicate-free (sampling zero from zero
returns empty as the n = 0 instance). -/
theorem c3_random_contract (n : Nat) (pid : Int) (idx : List Nat) (db : Database)
    (out : List Int) :
    (matcherRandom n pid idx db = Except.error MatchError.sampleTooLarge ↔
      db.mentors.length < n) ∧
    ((∀ m ∈ db.mentors, m.profile_id ≠ none) → sampleChoice db.mentors.length n idx →
      (n ≤ db.mentors.length → matcherRandom n pid idx db =
        Except.ok (idx.map fun i => ((db.mentors[i]?).bind Mentor.profile_id).getD 0)) ∧
      (matcherRandom n pid idx db = Except.ok out →
        out.length = n ∧ (∀ x ∈ out, ∃ m ∈ db.mentors, m.profile_id = some x) ∧
        ((db.mentors.filterMap Mentor.profile_id).Nodup → out.Nodup))) := by
  have hfail : db.mentors.length < n → matcherRandom n pid idx db =
      Except.error MatchError.sampleTooLarge := by
    intro hlt
    unfold matcherRandom sample
    rw [if_neg (Nat.not_le_of_lt hlt)]
    rfl
  have hnofail : n ≤ db.mentors.length →
      matcherRandom n pid idx db ≠ Except.error MatchError.sampleTooLarge := by
    intro hle herr
    unfold matcherRandom sample at herr
    rw [if_pos hle] at herr
    simp only [Bind.bind, Except.bind] at herr
    rcases traverseExcept_error_mem herr with ⟨m, _, hm⟩
    cases hpid : m.profile_id with
    | some v => rw [hpid] at hm; exact absurd hm (by simp [getKey])
    | none =>
      rw [hpid] at hm
      simp only [getKey] at hm
      exact MatchError.noConfusion (Except.error.inj hm)
  constructor
  · constructor
    · intro herr
      by_contra hcon
      exact hnofail (Nat.le_of_not_lt hcon) herr
    · exact hfail
  · intro hids hidx
    obtain ⟨hlen, hnd, hbnd⟩ := hidx
    have hsucc : n ≤ db.mentors.length → matcherRandom n pid idx db =
        Except.ok (idx.map fun i => ((db.mentors[i]?).bind Mentor.profile_id).getD 0) := by
      intro hle
      unfold matcherRandom sample
      rw [if_pos hle]
      simp only [Bind.bind, Except.bind]
      exact traverseExcept_sample_eq_map hbnd hids
    refine ⟨hsucc, ?_⟩
    intro hok
    by_cases hle : n ≤ db.mentors.length
    · have hout : out = idx.map fun i => ((db.mentors[i]?).bind Mentor.profile_id).getD 0 :=
        Except.ok.inj (hok.symm.trans (hsucc hle))
      subst hout
      refine ⟨by rw [List.length_map]; exact hlen, ?_, ?_⟩
      · intro x hx
        rcases List.mem_map.mp hx with ⟨i, hi, hgx⟩
        have hib : i < db.mentors.length := hbnd i hi
        have hgi : db.mentors[i]? = some db.mentors[i] := List.getElem?_eq_getElem hib
        have hmem : db.mentors[i] ∈ db.mentors := List.getElem?_mem hgi
        cases hpid : (db.mentors[i]).profile_id with
        | none => exact absurd hpid (hids _ hmem)
        | some v =>
          refine ⟨db.mentors[i], hmem, ?_⟩
          rw [hgi] at hgx
          simp [hpid] at hgx
          simp [hpid, hgx]
      · intro hnodup
        rw [filterMap_profile_eq_map hids] at hnodup
        have hinj := List.nodup_iff_injective_get.mp hnodup
        refine List.Nodup.map_on ?_ hnd
        intro i hi j hj hgij
        have hib : i < db.mentors.length := hbnd i hi
        have hjb : j < db.mentors.length := hbnd j hj
        have hlm : (db.mentors.map (fun m => m.profile_id.getD 0)).length =
            db.mentors.length := List.length_map _ _
        have hgi2 : ((db.mentors[i]?).bind Mentor.profile_id).getD 0 =
            (db.mentors.map (fun m => m.profile_id.getD 0)).get ⟨i, by rw [hlm]; exact hib⟩ := by
          rw [List.getElem?_eq_getElem hib]
          simp [List.get_map, Option.getD]
        have hgj2 : ((db.mentors[j]?).bind Mentor.profile_id).getD 0 =
            (db.mentors.map (fun m => m.profile_id.getD 0)).get ⟨j, by rw [hlm]; exact hjb⟩ := by
          rw [List.getElem?_eq_getElem hjb]
          simp [List.get_map, Option.getD]
        rw [hgi2, hgj2] at hgij
        have := hinj hgij
        exact congrArg Fin.val this
    · have hlt : db.mentors.length < n := Nat.lt_of_not_le hle
      rw [hfail hlt] at hok
      exact Except.noConfusion hok

/-- Witness for C3 (amended) on the full-field database of three mentors:
requesting 4 fails with the insufficient-candidates condition; all three
mentors carry profile_id, [0, 1] is a valid sample of 2 from 3, and the run
with n_matches = 2 returns the two ids at positions 0 and 1. -/
theorem c3_random_contract_witness :
    matcherRandom 4 0 [0, 1] dbFull = Except.error MatchError.sampleTooLarge ∧
    (∀ m ∈ dbFull.mentors, m.profile_id ≠ none) ∧
    sampleChoice dbFull.mentors.length 2 [0, 1] ∧
    matcherRandom 2 0 [0, 1] dbFull = Except.ok [1, 2] ∧
    ([1, 2] : List Int).length = 2 := by
  refine ⟨?_, by decide, by decide, rfl, ?_⟩
  · exact (c3_random_contract 4 0 [0, 1] dbFull []).1.mpr (by decide)
  · exact (((c3_random_contract 2 0 [0, 1] dbFull [1, 2]).2 (by decide) (by decide)).2 rfl).1
